import Mathlib

/-!
Verification of the date-delta calculator and display formatter of the
DeadlineCount widget (`src/main.rs`).

The Rust program relies on two external crates whose behaviour is part of its
semantics and is therefore modelled here from those crates' code and
documentation:

* `chrono` supplies `NaiveDate::parse_from_str(s, "%Y-%m-%d")`, date
  subtraction and the valid-date range (proleptic Gregorian calendar, years
  `-262144 ..= 262143`);
* `num_bigint` supplies `BigInt` parsing, truncating division and decimal
  display.

Everything from `src/main.rs` itself (`parse_date_fallback`,
`calculate_days_until`, the thousands-separator loop and the display-text
composition in `update_countdown_display` and in the `on_save_settings`
closure) is translated directly.  The system clock read
(`Local::now().naive_local().date()`) is made an explicit `today` parameter.
Rust strings are modelled as `String` / `List Char`; all inputs here are
ASCII so Rust's byte length and char count coincide.
-/

/-- A calendar date as stored by chrono's `NaiveDate`: a (possibly negative)
proleptic-Gregorian year together with month and day numbers. -/
structure NDate where
  year : Int
  month : Nat
  day : Nat
deriving DecidableEq, Repr

/-- Gregorian leap-year rule, as implemented by chrono's year-flags table:
divisible by 4 and, when divisible by 100, also by 400. -/
def isLeap (y : Int) : Bool :=
  (y % 4 == 0 && y % 100 != 0) || y % 400 == 0

/-- Length in days of month `m` of year `y` (chrono's month-length table);
`0` for an out-of-range month number. -/
def monthLen (y : Int) (m : Nat) : Nat :=
  match m with
  | 1 => 31
  | 2 => if isLeap y then 29 else 28
  | 3 => 31
  | 4 => 30
  | 5 => 31
  | 6 => 30
  | 7 => 31
  | 8 => 31
  | 9 => 30
  | 10 => 31
  | 11 => 30
  | 12 => 31
  | _ => 0

/-- Number of days of year `y` that precede month `m` (chrono's cumulative
ordinal table: the day-of-year of the first of month `m`, minus one). -/
def daysBeforeMonth (y : Int) (m : Nat) : Nat :=
  (match m with
   | 1 => 0
   | 2 => 31
   | 3 => 59
   | 4 => 90
   | 5 => 120
   | 6 => 151
   | 7 => 181
   | 8 => 212
   | 9 => 243
   | 10 => 273
   | 11 => 304
   | 12 => 334
   | _ => 0) +
  (if 3 ≤ m ∧ isLeap y then 1 else 0)

/-- chrono's `Datelike::num_days_from_ce`: the day number of a date counted
from 0000-12-31 (so 0001-01-01 is day 1).  chrono computes
`365*y + y/4 - y/100 + y/400 + ordinal` for `y = year - 1` with
floor-division semantics (it offsets negative years by multiples of 400 to
keep the truncating machine division equal to floor division); `Int.fdiv` is
that floor division.  `NaiveDate` subtraction returns the difference of the
two day numbers. -/
def numDaysFromCE (d : NDate) : Int :=
  let y := d.year - 1
  365 * y + Int.fdiv y 4 - Int.fdiv y 100 + Int.fdiv y 400 +
    (daysBeforeMonth d.year d.month : Int) + (d.day : Int)

/-- The date is a real proleptic-Gregorian calendar date (month in range and
day within the month's true length). -/
def NDate.Valid (d : NDate) : Prop :=
  1 ≤ d.month ∧ d.month ≤ 12 ∧ 1 ≤ d.day ∧ d.day ≤ monthLen d.year d.month

/-- The calendar successor of a date: the next day honouring real month
lengths and leap years.  Used to state that `numDaysFromCE` counts actual
calendar days. -/
def nextDay (d : NDate) : NDate :=
  if d.day < monthLen d.year d.month then ⟨d.year, d.month, d.day + 1⟩
  else if d.month < 12 then ⟨d.year, d.month + 1, 1⟩
  else ⟨d.year + 1, 1, 1⟩

/-- Largest `i64` value; chrono's digit scanner accumulates into an `i64`
and fails with `OUT_OF_RANGE` on overflow. -/
def i64Max : Int := 9223372036854775807

/-- chrono's `scan::number(s, min, max)`: consume up to `maxD` leading ASCII
digits, fail if fewer than `minD` digits are found (first non-digit too
early, or input too short) or if the accumulated value overflows `i64`;
return the rest of the input and the value.  Overflow at an intermediate
step is equivalent to the final value exceeding `i64Max` because appending
digits never decreases the value. -/
def scanNumber (s : List Char) (minD maxD : Nat) : Option (List Char × Int) :=
  let digits := (s.take maxD).takeWhile Char.isDigit
  if digits.length < minD then none
  else
    let v : Int := digits.foldl (fun n c => n * 10 + ((c.toNat - 48 : Nat) : Int)) 0
    if i64Max < v then none
    else some (s.drop digits.length, v)

/-- chrono's parsing of the `%Y` item: a leading `-` or `+` sign allows an
unbounded run of digits (negated for `-`); without a sign at most 4 digits
are read. -/
def parseYear (s : List Char) : Option (List Char × Int) :=
  match s with
  | '-' :: rest => (scanNumber rest 1 rest.length).map (fun p => (p.1, -p.2))
  | '+' :: rest => scanNumber rest 1 rest.length
  | _ => scanNumber s 1 4

/-- chrono's handling of a literal item in a format string: the next input
character must be exactly that literal. -/
def parseLit (c : Char) : List Char → Option (List Char)
  | [] => none
  | x :: rest => if x = c then some rest else none

/-- chrono's `NaiveDate::from_ymd_opt`: `some` exactly when the month and day
form a real calendar date and the year is within `NaiveDate`'s representable
range `-262144 ..= 262143` (chrono's `MIN_YEAR = i32::MIN >> 13`,
`MAX_YEAR = i32::MAX >> 13`).  A year too large for `i32` already fails
chrono's `Parsed::set_year`; both failures are this `none`. -/
def fromYmdOpt (y : Int) (m d : Nat) : Option NDate :=
  if 1 ≤ m ∧ m ≤ 12 ∧ 1 ≤ d ∧ d ≤ monthLen y m ∧ -262144 ≤ y ∧ y ≤ 262143
  then some ⟨y, m, d⟩ else none

/-- chrono's `NaiveDate::parse_from_str(s, "%Y-%m-%d")`: the format items are
`[%Y, '-', %m, '-', %d]`; each numeric item first skips leading whitespace,
each literal must match exactly, trailing input is an error (`TOO_LONG`), and
the collected fields are validated by `from_ymd_opt`. -/
def parseFromStr (s0 : List Char) : Option NDate := do
  let (s2, y) ← parseYear (s0.dropWhile Char.isWhitespace)
  let s3 ← parseLit '-' s2
  let (s5, mo) ← scanNumber (s3.dropWhile Char.isWhitespace) 1 2
  let s6 ← parseLit '-' s5
  let (s8, da) ← scanNumber (s6.dropWhile Char.isWhitespace) 1 2
  if s8 = [] then fromYmdOpt y mo.toNat da.toNat else none

/-- Rust's `str::split('-')` collected into a vector: the (possibly empty)
pieces of the string between the `-` separators; the empty string yields
`[""]`. -/
def splitDash : List Char → List (List Char)
  | [] => [[]]
  | '-' :: rest => [] :: splitDash rest
  | c :: rest =>
    match splitDash rest with
    | [] => [[c]]
    | p :: ps => (c :: p) :: ps

/-- Decimal value of an ASCII digit character. -/
def digitVal (c : Char) : Nat := c.toNat - 48

/-- num-bigint's `BigUint::from_str_radix` at radix 10 (after sign removal):
fails on an empty string or a leading underscore; every character must be a
decimal digit or an underscore (underscores are skipped); any other
character — including letters, whose digit value reaches the radix — fails. -/
def parseBigUintDigits (s : List Char) : Option Nat :=
  match s with
  | [] => none
  | c :: _ =>
    if c = '_' then none
    else if s.all (fun ch => Char.isDigit ch || ch == '_') then
      some ((s.filter Char.isDigit).foldl (fun n ch => n * 10 + digitVal ch) 0)
    else none

/-- num-bigint's `BigUint::from_str_radix`: strips a single leading `+`
(only when not followed by another `+`) and parses the digits. -/
def parseBigUintStr (s : List Char) : Option Nat :=
  match s with
  | '+' :: tail => if tail.head? = some '+' then parseBigUintDigits s else parseBigUintDigits tail
  | _ => parseBigUintDigits s

/-- `str::parse::<BigInt>()` (num-bigint's `FromStr`, radix 10): an optional
leading `-` negates the magnitude parsed by the `BigUint` parser. -/
def parseBigInt (s : List Char) : Option Int :=
  match s with
  | '-' :: tail => (parseBigUintStr tail).map (fun n => -(n : Int))
  | _ => (parseBigUintStr s).map (fun n => (n : Int))

/-- `str::parse::<u32>()` (Rust core): an optional leading `+`, then at least
one ASCII digit and nothing else, with the value bounded by `u32::MAX`. -/
def parseU32 (s : List Char) : Option Nat :=
  let s1 := match s with
    | '+' :: tail => tail
    | _ => s
  match s1 with
  | [] => none
  | _ =>
    if s1.all Char.isDigit then
      let v := s1.foldl (fun n ch => n * 10 + digitVal ch) 0
      if v < 4294967296 then some v else none
    else none

/-- `parse_date_fallback` from `src/main.rs`: split on `-` into exactly
3 fields, parse the year as a `BigInt` and month/day as `u32`, and require
month in `[1, 12]` and day in `[1, 31]`. -/
def parse_date_fallback (date_str : List Char) : Option (Int × Nat × Nat) :=
  match splitDash date_str with
  | [p0, p1, p2] =>
    match parseBigInt p0, parseU32 p1, parseU32 p2 with
    | some year, some month, some day =>
      if month < 1 || month > 12 || day < 1 || day > 31 then none
      else some (year, month, day)
    | _, _, _ => none
  | _ => none

/-- `calculate_days_until` from `src/main.rs`, with the system-clock read
`Local::now().naive_local().date()` passed in as `today`.  The primary path
parses with chrono and subtracts `NaiveDate`s (difference of day numbers);
the fallback path uses the approximate 365/30-day arithmetic, with
`num_bigint`'s truncating division (`Int.tdiv`) for `year_diff / 4`. -/
def calculate_days_until (today : NDate) (target_date : String) : Int × Bool :=
  match parseFromStr target_date.data with
  | some target =>
    let days := numDaysFromCE target - numDaysFromCE today
    if days < 0 then (-days, true) else (days, false)
  | none =>
    match parse_date_fallback target_date.data with
    | some (target_year, target_month, target_day) =>
      let year_diff := target_year - today.year
      let total_days :=
        if year_diff = 0 then
          ((target_month : Int) - (today.month : Int)) * 30 +
            ((target_day : Int) - (today.day : Int))
        else
          year_diff * 365 + Int.tdiv year_diff 4 +
            (((target_month : Int) - (today.month : Int)) * 30 +
              ((target_day : Int) - (today.day : Int)))
      if total_days < 0 then (-total_days, true) else (total_days, false)
    | none => (0, false)

/-- Decimal digits of `n`, least-significant first, empty for zero.  The
first argument is fuel bounding the recursion depth; `n` itself is always
enough fuel since `n < 10 ^ n`. -/
def natDecimalAux : Nat → Nat → List Char
  | 0, _ => []
  | fuel + 1, n =>
    if n = 0 then [] else Nat.digitChar (n % 10) :: natDecimalAux fuel (n / 10)

/-- Decimal digit string of a natural number (num-bigint's `Display` for the
magnitude): most-significant digit first, `"0"` for zero. -/
def natDecimal (n : Nat) : List Char :=
  if n = 0 then ['0'] else (natDecimalAux n n).reverse

/-- `format!("{}", days)` for a `BigInt`: the decimal magnitude with a `-`
sign when negative. -/
def bigintDisplay (n : Int) : String :=
  if n < 0 then String.mk ('-' :: natDecimal n.natAbs)
  else String.mk (natDecimal n.toNat)

/-- The thousands-separator loop of `update_countdown_display`
(`src/main.rs` lines 176–187): walk the characters with their indices,
emitting each character and, when the number of characters still to come is a
positive multiple of 3, a comma. -/
def insertCommas (cs : List Char) : List Char :=
  let len := cs.length
  cs.enum.foldl
    (fun result ic =>
      let result := result ++ [ic.2]
      if (len - ic.1 - 1) % 3 == 0 && ic.1 != len - 1 then result ++ [',']
      else result)
    []

/-- Lines 173–190 of `update_countdown_display`: render the day count and
apply the separator loop only when the rendered string is longer than
3 characters. -/
def formatThousands (days : Int) : String :=
  let days_str := bigintDisplay days
  if days_str.length > 3 then String.mk (insertCommas days_str.data)
  else days_str

/-- Lines 192–199 of `update_countdown_display`: compose the display text
from the overdue flag, the title and the formatted day count. -/
def display_text (is_expired : Bool) (title formatted_days : String) : String :=
  if is_expired then title ++ " 0 天（倒计时已过期" ++ formatted_days ++ "天）"
  else title ++ " " ++ formatted_days ++ " 天"

/-- The `AppSettings` fields consumed by the display computation.  The
remaining fields (`auto_start`, `window_x`, `window_y`) are persistence and
window-position glue never read by the functions modelled here. -/
structure AppSettings where
  title : String
  exam_date : String

/-- `update_countdown_display` from `src/main.rs` (the computed text; the
`ui.set_countdown_text` call merely displays it). -/
def update_countdown_display (today : NDate) (settings : AppSettings) : String :=
  let r := calculate_days_until today settings.exam_date
  display_text r.2 settings.title (formatThousands r.1)

/-- The display-text computation duplicated inside the `on_save_settings`
closure in `main` (`src/main.rs` lines 261–287), translated independently
and in full from that code block. -/
def on_save_settings_display (today : NDate) (title exam_date : String) : String :=
  let r := calculate_days_until today exam_date
  let days := r.1
  let is_expired := r.2
  let days_str := bigintDisplay days
  let formatted_days :=
    if days_str.length > 3 then String.mk (insertCommas days_str.data)
    else days_str
  if is_expired then title ++ " 0 天（倒计时已过期" ++ formatted_days ++ "天）"
  else title ++ " " ++ formatted_days ++ " 天"

/-- Modelled from the spec (§4.2): "Insert a thousands separator every
3 digits counted from the least-significant digit", with no leading or
trailing separator.  Working on the reversed string, `specGroupAux` copies
three characters and inserts a comma exactly when more characters follow. -/
def specGroupAux : List Char → List Char
  | a :: b :: c :: d :: rest => a :: b :: c :: ',' :: specGroupAux (d :: rest)
  | l => l

/-- Modelled from the spec (§4.2): group the digit string in threes counted
from its right end, separating the groups with commas. -/
def specThousandsGrouping (cs : List Char) : List Char :=
  (specGroupAux cs.reverse).reverse

/-- Recursive restatement of the separator loop: at each character a comma
follows exactly when the number of characters still to come is a positive
multiple of 3.  Bridges the indexed fold of `insertCommas` to structural
induction. -/
def insertCommasRec : List Char → List Char
  | [] => []
  | c :: rest =>
    c :: (if rest.length % 3 == 0 && rest.length != 0 then ',' :: insertCommasRec rest
          else insertCommasRec rest)

/-- Floor division by 4 steps by one exactly at multiples of 4. -/
theorem fdiv_step_four (y : Int) :
    Int.fdiv y 4 - Int.fdiv (y - 1) 4 = if (4 : Int) ∣ y then 1 else 0 := by
  rw [Int.fdiv_eq_ediv _ (by norm_num), Int.fdiv_eq_ediv _ (by norm_num)]
  split <;> omega

/-- Floor division by 100 steps by one exactly at multiples of 100. -/
theorem fdiv_step_hundred (y : Int) :
    Int.fdiv y 100 - Int.fdiv (y - 1) 100 = if (100 : Int) ∣ y then 1 else 0 := by
  rw [Int.fdiv_eq_ediv _ (by norm_num), Int.fdiv_eq_ediv _ (by norm_num)]
  split <;> omega

/-- Floor division by 400 steps by one exactly at multiples of 400. -/
theorem fdiv_step_fourhundred (y : Int) :
    Int.fdiv y 400 - Int.fdiv (y - 1) 400 = if (400 : Int) ∣ y then 1 else 0 := by
  rw [Int.fdiv_eq_ediv _ (by norm_num), Int.fdiv_eq_ediv _ (by norm_num)]
  split <;> omega

/-- The Gregorian leap-year indicator equals the inclusion–exclusion count of
the divisibility conditions entering the day-number formula. -/
theorem leap_indicator (y : Int) :
    (if isLeap y then (1 : Int) else 0)
      = (if (4 : Int) ∣ y then 1 else 0) - (if (100 : Int) ∣ y then 1 else 0)
        + (if (400 : Int) ∣ y then 1 else 0) := by
  simp only [isLeap, Int.dvd_iff_emod_eq_zero, Bool.or_eq_true, Bool.and_eq_true,
    beq_iff_eq, bne_iff_ne, decide_eq_true_eq, ne_eq]
  split_ifs <;> omega

/-- The year part of `numDaysFromCE` grows from year `y` to year `y + 1` by
365 days plus one for a leap year `y`. -/
theorem gregCycle (y : Int) :
    365 * y + Int.fdiv y 4 - Int.fdiv y 100 + Int.fdiv y 400
      = 365 * (y - 1) + Int.fdiv (y - 1) 4 - Int.fdiv (y - 1) 100 + Int.fdiv (y - 1) 400
        + 365 + (if isLeap y then 1 else 0) := by
  have h4 := fdiv_step_four y
  have h100 := fdiv_step_hundred y
  have h400 := fdiv_step_fourhundred y
  have hl := leap_indicator y
  linear_combination h4 - h100 + h400 - hl

/-- From one month to the next within a year, the cumulative table advances
by exactly the month's length. -/
theorem daysBeforeMonth_succ (y : Int) (m : Nat) (h1 : 1 ≤ m) (h2 : m ≤ 11) :
    daysBeforeMonth y (m + 1) = daysBeforeMonth y m + monthLen y m := by
  interval_cases m <;> cases hb : isLeap y <;>
    simp [daysBeforeMonth, monthLen, hb]

/-- `numDaysFromCE` counts actual proleptic-Gregorian days: it increases by
exactly one from any valid date to its calendar successor. -/
theorem numDaysFromCE_nextDay (d : NDate) (hv : d.Valid) :
    numDaysFromCE (nextDay d) = numDaysFromCE d + 1 := by
  obtain ⟨hm1, hm2, hd1, hd2⟩ := hv
  unfold nextDay
  split
  · simp only [numDaysFromCE]
    push_cast
    ring
  · rename_i h
    have hde : d.day = monthLen d.year d.month := le_antisymm hd2 (not_lt.mp h)
    split
    · rename_i hm
      have hb := daysBeforeMonth_succ d.year d.month hm1 (by omega)
      simp only [numDaysFromCE]
      push_cast
      omega
    · rename_i hm
      have hm12 : d.month = 12 := by omega
      have hd31 : d.day = 31 := by simpa [hm12, monthLen] using hde
      have hstep := gregCycle d.year
      simp only [numDaysFromCE, hm12, hd31]
      have e1 : d.year + 1 - 1 = d.year := by ring
      have e2 : daysBeforeMonth (d.year + 1) 1 = 0 := by norm_num [daysBeforeMonth]
      have e3 : ((daysBeforeMonth d.year 12 : Nat) : Int)
          = 334 + (if isLeap d.year then 1 else 0) := by
        cases hb : isLeap d.year <;> norm_num [daysBeforeMonth, hb]
      rw [e1, e2, e3]
      push_cast
      linear_combination hstep

theorem insertCommas_foldl_aux (len : Nat) :
    ∀ (rest : List Char) (i : Nat) (acc : List Char), i + rest.length = len →
      List.foldl
        (fun result ic =>
          let result := result ++ [ic.2]
          if (len - ic.1 - 1) % 3 == 0 && ic.1 != len - 1 then result ++ [',']
          else result)
        acc (List.enumFrom i rest)
      = acc ++ insertCommasRec rest := by
  intro rest
  induction rest with
  | nil => intro i acc _; simp [insertCommasRec]
  | cons c rest ih =>
    intro i acc h
    have hlen : i + (rest.length + 1) = len := by simpa using h
    simp only [List.enumFrom, List.foldl_cons]
    rw [ih (i + 1) _ (by omega)]
    have e1 : len - i - 1 = rest.length := by omega
    have e2 : (i != len - 1) = (rest.length != 0) := by
      rw [Bool.eq_iff_iff]
      simp only [bne_iff_ne, ne_eq]
      omega
    rw [e1, e2]
    cases hcond : (rest.length % 3 == 0 && rest.length != 0) <;>
      simp [insertCommasRec, hcond, List.append_assoc]

theorem insertCommas_eq_rec (cs : List Char) : insertCommas cs = insertCommasRec cs := by
  unfold insertCommas
  exact insertCommas_foldl_aux cs.length cs 0 [] (by simp)

theorem insertCommasRec_small (cs : List Char) (h : cs.length ≤ 3) :
    insertCommasRec cs = cs := by
  match cs with
  | [] => rfl
  | [a] => rfl
  | [a, b] => rfl
  | [a, b, c] => rfl
  | a :: b :: c :: d :: t => simp at h

theorem specGrouping_small (cs : List Char) (h : cs.length ≤ 3) :
    specThousandsGrouping cs = cs := by
  match cs with
  | [] => rfl
  | [a] => rfl
  | [a, b] => rfl
  | [a, b, c] => simp [specThousandsGrouping, specGroupAux]
  | a :: b :: c :: d :: t => simp at h

theorem insertCommasRec_append3 (ys : List Char) (a b c : Char) (h : ys ≠ []) :
    insertCommasRec (ys ++ [a, b, c]) = insertCommasRec ys ++ ',' :: [a, b, c] := by
  induction ys with
  | nil => exact absurd rfl h
  | cons y ys ih =>
    cases ys with
    | nil => simp [insertCommasRec]
    | cons z zs =>
      have hne : z :: zs ≠ [] := by simp
      rw [List.cons_append, insertCommasRec]
      conv_rhs => rw [insertCommasRec]
      simp only [ih hne]
      simp only [List.length_append, List.length_cons, List.length_nil]
      have ec : (zs.length + 1 + (2 + 1)) % 3 = (zs.length + 1) % 3 := by omega
      have e2 : ((zs.length + 1 + (2 + 1)) != 0) = true := by simp
      have e3 : ((zs.length + 1) != 0) = true := by simp
      rw [ec, e2]
      simp only [e3, Bool.and_true]
      cases h3 : ((zs.length + 1) % 3 == 0) <;> simp [h3, List.append_assoc]

theorem specGrouping_append3 (ys : List Char) (a b c : Char) (h : ys ≠ []) :
    specThousandsGrouping (ys ++ [a, b, c]) = specThousandsGrouping ys ++ ',' :: [a, b, c] := by
  obtain ⟨z, t, hz⟩ : ∃ z t, ys.reverse = z :: t := by
    cases hr : ys.reverse with
    | nil => exact absurd (by simpa using congrArg List.reverse hr) h
    | cons z t => exact ⟨z, t, rfl⟩
  unfold specThousandsGrouping
  rw [List.reverse_append, hz]
  simp [specGroupAux]

theorem insertCommasRec_eq_spec (cs : List Char) :
    insertCommasRec cs = specThousandsGrouping cs := by
  have main : ∀ (n : Nat) (l : List Char), l.length ≤ n →
      insertCommasRec l = specThousandsGrouping l := by
    intro n
    induction n with
    | zero =>
      intro l hl
      rw [List.length_eq_zero.mp (Nat.le_zero.mp hl)]
      rfl
    | succ n ih =>
      intro l hl
      by_cases hsmall : l.length ≤ 3
      · rw [insertCommasRec_small l hsmall, specGrouping_small l hsmall]
      · obtain ⟨ys, a, b, c, hys, hne⟩ :
            ∃ ys a b c, l = ys ++ [a, b, c] ∧ ys ≠ [] := by
          match hr : l.reverse with
          | [] => exact absurd (by simpa using congrArg List.reverse hr) (by
              intro he; rw [he] at hsmall; simp at hsmall)
          | [r1] => exfalso; apply hsmall
                    have h1 : l.length = 1 := by
                      have := congrArg List.length (congrArg List.reverse hr)
                      simpa using this
                    omega
          | [r1, r2] => exfalso; apply hsmall
                        have h1 : l.length = 2 := by
                          have := congrArg List.length (congrArg List.reverse hr)
                          simpa using this
                        omega
          | [r1, r2, r3] => exfalso; apply hsmall
                            have h1 : l.length = 3 := by
                              have := congrArg List.length (congrArg List.reverse hr)
                              simpa using this
                            omega
          | r1 :: r2 :: r3 :: r4 :: t =>
            refine ⟨(r4 :: t).reverse, r3, r2, r1, ?_, by simp⟩
            have := congrArg List.reverse hr
            simpa using this
        subst hys
        rw [insertCommasRec_append3 _ _ _ _ hne, specGrouping_append3 _ _ _ _ hne,
          ih ys (by simp at hl; omega)]
  exact main cs.length cs le_rfl

theorem insertCommas_eq_spec (cs : List Char) :
    insertCommas cs = specThousandsGrouping cs := by
  rw [insertCommas_eq_rec, insertCommasRec_eq_spec]

/-- Bound on the number of emitted digits: below `10 ^ k` at most `k`
digits appear. -/
theorem natDecimalAux_len (fuel : Nat) :
    ∀ (n k : Nat), n < 10 ^ k → (natDecimalAux fuel n).length ≤ k := by
  induction fuel with
  | zero => intro n k _; simp [natDecimalAux]
  | succ fuel ih =>
    intro n k h
    by_cases hz : n = 0
    · simp [natDecimalAux, hz]
    · have hk : k ≠ 0 := by
        rintro rfl
        simp at h
        omega
      obtain ⟨k', rfl⟩ : ∃ k', k = k' + 1 := ⟨k - 1, by omega⟩
      have hdiv : n / 10 < 10 ^ k' := by
        rw [Nat.div_lt_iff_lt_mul (by norm_num)]
        calc n < 10 ^ (k' + 1) := h
        _ = 10 ^ k' * 10 := by ring
      have := ih (n / 10) k' hdiv
      simp [natDecimalAux, hz]
      omega

/-- A non-negative value below 1000 renders to at most 3 characters. -/
theorem bigintDisplay_len_le_three (n : Int) (h0 : 0 ≤ n) (h : n < 1000) :
    (bigintDisplay n).length ≤ 3 := by
  unfold bigintDisplay
  rw [if_neg (by omega)]
  unfold natDecimal
  by_cases hz : n.toNat = 0
  · simp [hz, String.length]
  · rw [if_neg hz]
    have := natDecimalAux_len n.toNat n.toNat 3 (by omega)
    simp [String.length]
    omega

/-- C1: for every target-date string that strict-parses as "%Y-%m-%d" and
every today date, `calculate_days_until` takes the primary calendar path and
returns the proleptic-Gregorian day difference target − today as
(|difference|, difference < 0); and that difference is the true calendar day
count, since `numDaysFromCE` advances by exactly one across every valid
date's calendar successor. -/
theorem claim_C1 :
    (∀ (today : NDate) (s : String) (t : NDate), parseFromStr s.data = some t →
        calculate_days_until today s
          = (|numDaysFromCE t - numDaysFromCE today|,
             decide (numDaysFromCE t - numDaysFromCE today < 0))) ∧
    (∀ d : NDate, d.Valid → numDaysFromCE (nextDay d) = numDaysFromCE d + 1) := by
  constructor
  · intro today s t hp
    simp only [calculate_days_until, hp]
    by_cases h : numDaysFromCE t - numDaysFromCE today < 0
    · rw [if_pos h]
      simp [abs_of_neg h, h]
    · rw [if_neg h]
      simp [abs_of_nonneg (not_lt.mp h), h]
  · exact fun d hv => numDaysFromCE_nextDay d hv

/-- Witness for C1: target "2024-03-15" with today 2024-01-01 gives 74 days
remaining on the primary path, and the successor step at the leap day
2024-02-29. -/
theorem claim_C1_witness :
    calculate_days_until ⟨2024, 1, 1⟩ "2024-03-15" = (74, false) ∧
    numDaysFromCE (nextDay ⟨2024, 2, 29⟩) = numDaysFromCE ⟨2024, 2, 29⟩ + 1 := by
  constructor
  · exact (claim_C1.1 ⟨2024, 1, 1⟩ "2024-03-15" ⟨2024, 3, 15⟩ (by decide)).trans (by decide)
  · exact claim_C1.2 ⟨2024, 2, 29⟩ (by unfold NDate.Valid; decide)

/-- C2: for every target string and every today date, the first component
returned by `calculate_days_until` is non-negative; the sign lives only in
the boolean flag. -/
theorem claim_C2 (today : NDate) (s : String) :
    0 ≤ (calculate_days_until today s).1 := by
  have key : ∀ x : Int, 0 ≤ ((if x < 0 then (-x, true) else (x, false)) : Int × Bool).1 := by
    intro x
    split <;> simp <;> omega
  unfold calculate_days_until
  split
  · dsimp only
    apply key
  · split
    · dsimp only
      apply key
    · simp

/-- C3: whenever both the strict parse and the fallback parse fail,
`calculate_days_until` returns (0, false); in particular "2024/13/50" does,
for every today date.  The model is a total function, so no panic or error
ever reaches the caller. -/
theorem claim_C3 :
    (∀ (today : NDate) (s : String), parseFromStr s.data = none →
        parse_date_fallback s.data = none →
        calculate_days_until today s = (0, false)) ∧
    (∀ today : NDate, calculate_days_until today "2024/13/50" = (0, false)) := by
  constructor
  · intro today s h1 h2
    simp only [calculate_days_until, h1, h2]
  · intro today
    rfl

/-- Witness for C3 at the unparseable string "garbage". -/
theorem claim_C3_witness :
    calculate_days_until ⟨2024, 1, 1⟩ "garbage" = (0, false) :=
  claim_C3.1 ⟨2024, 1, 1⟩ "garbage" (by rfl) (by rfl)

/-- C4: on the fallback path with the target year equal to today's year, the
signed delta is (month difference)·30 + (day difference), sign folded into
the flag; and target "2024-03-15" with today 2024-01-01 yields (74, false). -/
theorem claim_C4 :
    (∀ (today : NDate) (s : String) (y : Int) (m d : Nat),
        parseFromStr s.data = none →
        parse_date_fallback s.data = some (y, m, d) →
        y = today.year →
        calculate_days_until today s
          = (|((m : Int) - (today.month : Int)) * 30 + ((d : Int) - (today.day : Int))|,
             decide (((m : Int) - (today.month : Int)) * 30
               + ((d : Int) - (today.day : Int)) < 0))) ∧
    calculate_days_until ⟨2024, 1, 1⟩ "2024-03-15" = (74, false) := by
  constructor
  · intro today s y m d h1 h2 hy
    simp only [calculate_days_until, h1, h2]
    rw [if_pos (by omega : y - today.year = 0)]
    by_cases h : ((m : Int) - (today.month : Int)) * 30 + ((d : Int) - (today.day : Int)) < 0
    · rw [if_pos h]
      simp [abs_of_neg h, h]
    · rw [if_neg h]
      simp [abs_of_nonneg (not_lt.mp h), h]
  · decide

/-- Witness for C4: "2024-02-31" fails the strict parse (February has no
day 31) but the fallback accepts it; with today 2024-01-01 the same-year
formula gives 1·30 + 30 = 60. -/
theorem claim_C4_witness :
    calculate_days_until ⟨2024, 1, 1⟩ "2024-02-31" = (60, false) :=
  (claim_C4.1 ⟨2024, 1, 1⟩ "2024-02-31" 2024 2 31 (by rfl) (by rfl) rfl).trans (by decide)

/-- C5: on the fallback path with the target year different from today's,
the signed delta is year_diff·365 + year_diff/4 (truncating division) plus
the 30-day month approximation, computed in unbounded integers, with the
sign folded into the flag. -/
theorem claim_C5 (today : NDate) (s : String) (y : Int) (m d : Nat)
    (h1 : parseFromStr s.data = none)
    (h2 : parse_date_fallback s.data = some (y, m, d))
    (hy : y ≠ today.year) :
    calculate_days_until today s
      = (|(y - today.year) * 365 + Int.tdiv (y - today.year) 4
            + (((m : Int) - (today.month : Int)) * 30 + ((d : Int) - (today.day : Int)))|,
         decide ((y - today.year) * 365 + Int.tdiv (y - today.year) 4
            + (((m : Int) - (today.month : Int)) * 30
              + ((d : Int) - (today.day : Int))) < 0)) := by
  simp only [calculate_days_until, h1, h2]
  rw [if_neg (by omega : ¬ y - today.year = 0)]
  by_cases h : (y - today.year) * 365 + Int.tdiv (y - today.year) 4
      + (((m : Int) - (today.month : Int)) * 30 + ((d : Int) - (today.day : Int))) < 0
  · rw [if_pos h]
    simp [abs_of_neg h, h]
  · rw [if_neg h]
    simp [abs_of_nonneg (not_lt.mp h), h]

/-- Witness for C5: "99999-01-01" fails the strict parse (an unsigned year
reads at most 4 digits) but the fallback accepts it; with today 2024-01-01
the cross-year formula gives 97975·365 + 24493 + 0 = 35785368. -/
theorem claim_C5_witness :
    calculate_days_until ⟨2024, 1, 1⟩ "99999-01-01" = (35785368, false) :=
  (claim_C5 ⟨2024, 1, 1⟩ "99999-01-01" 99999 1 1 (by rfl) (by rfl) (by decide)).trans
    (by decide)

/-- C6: the separator loop inserts a comma every 3 digits counted from the
least-significant end with no leading or trailing separator (it equals
grouping-in-threes from the right), a value rendering to at most 3 digits is
left unchanged, 1234 renders as "1,234" and 1000000 as "1,000,000". -/
theorem claim_C6 :
    (∀ cs : List Char, cs ≠ [] → insertCommas cs = specThousandsGrouping cs) ∧
    (∀ n : Int, 0 ≤ n → n < 1000 → formatThousands n = bigintDisplay n) ∧
    formatThousands 1234 = "1,234" ∧
    formatThousands 1000000 = "1,000,000" := by
  refine ⟨fun cs _ => insertCommas_eq_spec cs, ?_, by decide, by decide⟩
  intro n h0 h
  unfold formatThousands
  rw [if_neg (by have := bigintDisplay_len_le_three n h0 h; omega)]

/-- Witness for C6 at the digit string "1234" and the 1-digit value 5. -/
theorem claim_C6_witness :
    insertCommas ('1' :: '2' :: '3' :: '4' :: [])
        = specThousandsGrouping ('1' :: '2' :: '3' :: '4' :: []) ∧
    formatThousands 5 = bigintDisplay 5 :=
  ⟨claim_C6.1 _ (by decide), claim_C6.2.1 5 (by decide) (by decide)⟩

/-- C7: the composed display text is
"{title} 0 天（倒计时已过期{formatted}天）" when overdue and
"{title} {formatted} 天" otherwise; magnitude 0, overdue, title "Deadline"
gives "Deadline 0 天（倒计时已过期0天）". -/
theorem claim_C7 :
    (∀ (magnitude : Int) (overdue : Bool) (title : String),
        display_text overdue title (formatThousands magnitude)
          = if overdue then
              title ++ " 0 天（倒计时已过期" ++ formatThousands magnitude ++ "天）"
            else title ++ " " ++ formatThousands magnitude ++ " 天") ∧
    display_text true "Deadline" (formatThousands 0) = "Deadline 0 天（倒计时已过期0天）" :=
  ⟨fun _ _ _ => rfl, by decide⟩

/-- C8 counterexample: the strict parse succeeds on "9999-01-01" (a 4-digit
year within chrono's range), so the primary path runs and the result is not
the fallback value (2912868, false) the claim asserts. -/
theorem claim_C8_counterexample :
    parseFromStr "9999-01-01".data = some ⟨9999, 1, 1⟩ ∧
    calculate_days_until ⟨2024, 1, 1⟩ "9999-01-01" ≠ (2912868, false) :=
  ⟨by decide, by decide⟩

/-- C8 amended: for target "9999-01-01" with today 2024-01-01 the primary
calendar path runs and returns the true day difference (2912809, false). -/
theorem claim_C8_amended :
    calculate_days_until ⟨2024, 1, 1⟩ "9999-01-01" = (2912809, false) := by decide

/-- C9: the display-text computation of `update_countdown_display` and the
duplicate inside the `on_save_settings` closure produce identical strings on
every equal (today, title, target date). -/
theorem claim_C9 (today : NDate) (title exam_date : String) :
    update_countdown_display today ⟨title, exam_date⟩
      = on_save_settings_display today title exam_date := rfl

/-- C10 counterexample: "-123-01-01" begins with '-' yet does not yield
(0, false): chrono itself parses the negative in-range year, so the primary
path runs and reports the date long overdue. -/
theorem claim_C10_counterexample :
    parseFromStr "-123-01-01".data = some ⟨-123, 1, 1⟩ ∧
    calculate_days_until ⟨2024, 1, 1⟩ "-123-01-01" ≠ (0, false) :=
  ⟨by decide, by decide⟩

/-- C10 amended: for every date string beginning with '-' the fallback parse
fails (the split on '-' leaves an empty first field, or a field count other
than 3), so whenever the strict parse also fails — the year being outside
the calendar library's range — the result is (0, false). -/
theorem claim_C10_amended (today : NDate) (s : String)
    (hneg : s.data.head? = some '-')
    (hstrict : parseFromStr s.data = none) :
    calculate_days_until today s = (0, false) := by
  have hfb : parse_date_fallback s.data = none := by
    obtain ⟨rest, hr⟩ : ∃ rest, s.data = '-' :: rest := by
      cases hd : s.data with
      | nil => simp [hd] at hneg
      | cons c t =>
        rw [hd] at hneg
        simp only [List.head?_cons, Option.some.injEq] at hneg
        exact ⟨t, by rw [hneg]⟩
    rw [hr]
    show parse_date_fallback ('-' :: rest) = none
    unfold parse_date_fallback
    have hsd : splitDash ('-' :: rest) = [] :: splitDash rest := rfl
    rw [hsd]
    rcases hsp : splitDash rest with _ | ⟨p1, _ | ⟨p2, _ | ⟨p3, ps⟩⟩⟩ <;> rfl
  simp only [calculate_days_until, hstrict, hfb]

/-- Witness for C10 amended: "-999999-01-01" has a year below chrono's
minimum, so the strict parse fails and the absorbed result is (0, false). -/
theorem claim_C10_amended_witness :
    calculate_days_until ⟨2024, 1, 1⟩ "-999999-01-01" = (0, false) :=
  claim_C10_amended ⟨2024, 1, 1⟩ "-999999-01-01" (by decide) (by decide)
